import Mathlib

/-!
Verification of the monotonic game-clock component of the tyrquake platform
layer: the Win32 variant of Sys_DoubleTime / Sys_InitTimers (sys_win.c) and
the libretro variant of Sys_DoubleTime (sys_libretro.c).

Modelling conventions:
* C doubles are modelled as exact rationals.  All double operations the code
  performs on the clock path (add, multiply, divide by constants) are exact on
  the represented values; the one place where the distinction matters (the
  stall-breaker, which only fires under double-precision absorption) is
  discussed at its theorem.
* 32-bit unsigned quantities (unsigned int / DWORD) are naturals reduced
  modulo 2^32 exactly where the C type system truncates.
* The static module state of sys_win.c (timer_pfreq, timer_lowshift,
  timer_oldtime, timer_fallback, timer_fallback_start, and the function
  statics curtime, lastcurtime, sametimecount) is an explicit state record;
  each call to Sys_DoubleTime is a state transition fed with the values the
  OS counters would return at that moment.
-/

namespace TyrQuake

/-- 2^32, the modulus of unsigned int / DWORD arithmetic on Win32. -/
def TWO32 : ℕ := 4294967296

/-- LONG_MAX on Win32 (32-bit long). -/
def LONG_MAX : ℕ := 2147483647

/-- The backward-jump guard threshold 0x10000000 from Sys_DoubleTime. -/
def GUARD : ℕ := 268435456

/-- Unsigned 32-bit subtraction a - b, as computed by C on unsigned int. -/
def usub32 (a b : ℕ) : ℕ := (a % TWO32 + (TWO32 - b % TWO32)) % TWO32

/-- The static clock state of sys_win.c. -/
structure WinTimerState where
  timer_pfreq : ℚ
  timer_lowshift : ℕ
  timer_oldtime : ℕ
  timer_fallback : Bool
  timer_fallback_start : ℕ
  curtime : ℚ
  lastcurtime : ℚ
  sametimecount : ℕ
deriving Repr, DecidableEq

/-- The values the OS timing primitives would return at the moment of one
Sys_DoubleTime call: QueryPerformanceCounter low/high parts and the
timeGetTime millisecond counter. -/
structure TimerInput where
  pcountLow : ℕ
  pcountHigh : ℕ
  tgt : ℕ
deriving Repr, DecidableEq

/-- The frequency-normalization loop of Sys_InitTimers:
  while (highpart || (lowpart > 2000000.0)) \x7b
      timer_lowshift++;
      lowpart >>= 1;
      lowpart |= (highpart & 1) << 31;
      highpart >>= 1;
  \x7d
The loop is given structural fuel; 64 units suffice for every 64-bit
frequency (lemma freqShiftLoop_eq_halveLoopF below), so Sys_InitTimers
invokes it with fuel 64.  The comparison lowpart > 2000000.0 is exact:
lowpart < 2^32 converts to double without rounding. -/
def freqShiftLoop : ℕ → ℕ → ℕ → ℕ → ℕ × ℕ
  | 0, _, lowpart, lowshift => (lowshift, lowpart)
  | fuel + 1, highpart, lowpart, lowshift =>
    if highpart ≠ 0 ∨ 2000000 < lowpart then
      freqShiftLoop fuel (highpart / 2)
        (((lowpart / 2) ||| ((highpart % 2) * 2147483648)) % TWO32) (lowshift + 1)
    else
      (lowshift, lowpart)

/-- The raw-counter normalization applied both at the end of Sys_InitTimers
and at each Sys_DoubleTime call:
  temp = (unsigned int)pcount.LowPart >> timer_lowshift;
  temp |= (unsigned int)pcount.HighPart << (32 - timer_lowshift); -/
def normalizeCounter (lowshift low high : ℕ) : ℕ :=
  (((low % TWO32) >>> lowshift) ||| (((high % TWO32) <<< (32 - lowshift)) % TWO32)) % TWO32

/-- Sys_InitTimers.  qpfAvail is whether QueryPerformanceFrequency succeeded;
freqLow/freqHigh are the parts of the reported frequency, pcountLow/pcountHigh
the parts of the initial QueryPerformanceCounter sample, tgt the timeGetTime
value read on the fallback path.  The statics not set on a path keep their
zero initialization. -/
def Sys_InitTimers (qpfAvail : Bool) (freqLow freqHigh pcountLow pcountHigh tgt : ℕ) :
    WinTimerState :=
  if qpfAvail then
    let res := freqShiftLoop 64 (freqHigh % TWO32) (freqLow % TWO32) 0
    { timer_pfreq := 1 / ((res.2 : ℚ)),
      timer_lowshift := res.1,
      timer_oldtime := normalizeCounter res.1 pcountLow pcountHigh,
      timer_fallback := false,
      timer_fallback_start := 0,
      curtime := 0, lastcurtime := 0, sametimecount := 0 }
  else
    { timer_pfreq := 0, timer_lowshift := 0, timer_oldtime := 0,
      timer_fallback := true,
      timer_fallback_start := tgt % TWO32,
      curtime := 0, lastcurtime := 0, sametimecount := 0 }

/-- Convenience entry point: initialization from a 64-bit frequency value,
decomposed exactly as LARGE_INTEGER exposes it (LowPart, HighPart). -/
def initFromFreq (freq pcountLow pcountHigh : ℕ) : WinTimerState :=
  Sys_InitTimers true (freq % TWO32) (freq / TWO32) pcountLow pcountHigh 0

/-- The fallback branch of Sys_DoubleTime:
  DWORD now = timeGetTime();
  if (now < timer_fallback_start)  /* wrapped */
      return (now + (LONG_MAX - timer_fallback_start)) / 1000.0;
  return (now - timer_fallback_start) / 1000.0;
LONG_MAX - timer_fallback_start is computed in unsigned (32-bit) arithmetic,
as is the following addition. -/
def fallbackTime (start now : ℕ) : ℚ :=
  if now % TWO32 < start % TWO32 then
    (((now % TWO32 + (LONG_MAX + TWO32 - start % TWO32) % TWO32) % TWO32 : ℕ) : ℚ) / 1000
  else
    (((now % TWO32 - start % TWO32 : ℕ) : ℚ)) / 1000

/-- The primary (hardware-counter) branch of Sys_DoubleTime, taking the
already-normalized counter reading temp.  Mirrors:
  if ((temp <= timer_oldtime) && ((timer_oldtime - temp) < 0x10000000)) \x7b
      timer_oldtime = temp;
  \x7d else \x7b
      t2 = temp - timer_oldtime;
      time = (double)t2 * timer_pfreq;
      timer_oldtime = temp;
      curtime += time;
      if (curtime == lastcurtime) \x7b
          sametimecount++;
          if (sametimecount > 100000) \x7b curtime += 1.0; sametimecount = 0; \x7d
      \x7d else sametimecount = 0;
      lastcurtime = curtime;
  \x7d
  return curtime; -/
def sysDoubleTimePrimary (s : WinTimerState) (temp : ℕ) : ℚ × WinTimerState :=
  if temp ≤ s.timer_oldtime ∧ s.timer_oldtime - temp < GUARD then
    (s.curtime, { s with timer_oldtime := temp })
  else
    let t2 := usub32 temp s.timer_oldtime
    let c1 := s.curtime + (t2 : ℚ) * s.timer_pfreq
    if c1 = s.lastcurtime then
      if s.sametimecount + 1 > 100000 then
        (c1 + 1, { s with timer_oldtime := temp, curtime := c1 + 1,
                          sametimecount := 0, lastcurtime := c1 + 1 })
      else
        (c1, { s with timer_oldtime := temp, curtime := c1,
                      sametimecount := s.sametimecount + 1, lastcurtime := c1 })
    else
      (c1, { s with timer_oldtime := temp, curtime := c1,
                    sametimecount := 0, lastcurtime := c1 })

/-- Sys_DoubleTime (Win32 variant): one sampling call, returning the double
result and the updated static state. -/
def Sys_DoubleTime (s : WinTimerState) (inp : TimerInput) : ℚ × WinTimerState :=
  if s.timer_fallback then
    (fallbackTime s.timer_fallback_start inp.tgt, s)
  else
    sysDoubleTimePrimary s
      (normalizeCounter s.timer_lowshift inp.pcountLow inp.pcountHigh)

/-- A sequence of Sys_DoubleTime calls: the list of returned values and the
final state. -/
def runClock (s : WinTimerState) : List TimerInput → List ℚ × WinTimerState
  | [] => ([], s)
  | i :: is =>
    let r := Sys_DoubleTime s i
    let rest := runClock r.2 is
    (r.1 :: rest.1, rest.2)

/-- The static state of the libretro Sys_DoubleTime variant (static int
secbase). -/
structure LibretroState where
  secbase : ℤ
deriving Repr, DecidableEq

/-- One gettimeofday reading. -/
structure Timeval where
  tv_sec : ℤ
  tv_usec : ℤ
deriving Repr, DecidableEq

/-- Sys_DoubleTime (libretro variant):
  gettimeofday(&tp, &tzp);
  if (!secbase) \x7b secbase = tp.tv_sec; return tp.tv_usec / 1000000.0; \x7d
  return (tp.tv_sec - secbase) + tp.tv_usec / 1000000.0; -/
def Sys_DoubleTime_libretro (s : LibretroState) (tp : Timeval) : ℚ × LibretroState :=
  if s.secbase = 0 then
    ((tp.tv_usec : ℚ) / 1000000, { secbase := tp.tv_sec })
  else
    (((tp.tv_sec - s.secbase : ℤ) : ℚ) + (tp.tv_usec : ℚ) / 1000000, s)

/-- A sequence of libretro Sys_DoubleTime calls. -/
def runLibretro (s : LibretroState) : List Timeval → List ℚ × LibretroState
  | [] => ([], s)
  | tp :: tps =>
    let r := Sys_DoubleTime_libretro s tp
    let rest := runLibretro r.2 tps
    (r.1 :: rest.1, rest.2)

/-! ### Basic structural lemmas about one primary-path call -/

theorem sysDoubleTimePrimary_fst (s : WinTimerState) (temp : ℕ) :
    (sysDoubleTimePrimary s temp).1 = (sysDoubleTimePrimary s temp).2.curtime := by
  simp only [sysDoubleTimePrimary]
  split_ifs <;> rfl

theorem sysDoubleTimePrimary_oldtime (s : WinTimerState) (temp : ℕ) :
    (sysDoubleTimePrimary s temp).2.timer_oldtime = temp := by
  simp only [sysDoubleTimePrimary]
  split_ifs <;> rfl

theorem sysDoubleTimePrimary_pfreq (s : WinTimerState) (temp : ℕ) :
    (sysDoubleTimePrimary s temp).2.timer_pfreq = s.timer_pfreq := by
  simp only [sysDoubleTimePrimary]
  split_ifs <;> rfl

theorem sysDoubleTimePrimary_fallback (s : WinTimerState) (temp : ℕ) :
    (sysDoubleTimePrimary s temp).2.timer_fallback = s.timer_fallback := by
  simp only [sysDoubleTimePrimary]
  split_ifs <;> rfl

theorem sysDoubleTimePrimary_lowshift (s : WinTimerState) (temp : ℕ) :
    (sysDoubleTimePrimary s temp).2.timer_lowshift = s.timer_lowshift := by
  simp only [sysDoubleTimePrimary]
  split_ifs <;> rfl

theorem sysDoubleTimePrimary_curtime_le (s : WinTimerState) (temp : ℕ)
    (h : 0 ≤ s.timer_pfreq) :
    s.curtime ≤ (sysDoubleTimePrimary s temp).2.curtime := by
  have ht : (0 : ℚ) ≤ (usub32 temp s.timer_oldtime : ℚ) * s.timer_pfreq :=
    mul_nonneg (Nat.cast_nonneg _) h
  simp only [sysDoubleTimePrimary]
  split_ifs <;> simp <;> linarith

theorem Sys_DoubleTime_of_not_fallback (s : WinTimerState) (inp : TimerInput)
    (h : s.timer_fallback = false) :
    Sys_DoubleTime s inp =
      sysDoubleTimePrimary s
        (normalizeCounter s.timer_lowshift inp.pcountLow inp.pcountHigh) := by
  unfold Sys_DoubleTime
  simp [h]

theorem sysDoubleTimePrimary_cnt_le (s : WinTimerState) (temp : ℕ)
    (h : s.sametimecount ≤ 100000) :
    (sysDoubleTimePrimary s temp).2.sametimecount ≤ 100000 := by
  simp only [sysDoubleTimePrimary]
  split_ifs <;> simp <;> omega

theorem Sys_DoubleTime_cnt_le (s : WinTimerState) (inp : TimerInput)
    (h : s.sametimecount ≤ 100000) :
    (Sys_DoubleTime s inp).2.sametimecount ≤ 100000 := by
  unfold Sys_DoubleTime
  split_ifs
  · exact h
  · exact sysDoubleTimePrimary_cnt_le _ _ h

/-! ### Run-level lemmas -/

theorem runClock_length (inputs : List TimerInput) : ∀ s : WinTimerState,
    ((runClock s inputs).1).length = inputs.length := by
  induction inputs with
  | nil => intro s; rfl
  | cons i is ih => intro s; simp [runClock, ih]

theorem runLibretro_length (tps : List Timeval) : ∀ s : LibretroState,
    ((runLibretro s tps).1).length = tps.length := by
  induction tps with
  | nil => intro s; rfl
  | cons tp tps ih => intro s; simp [runLibretro, ih]

theorem runClock_cnt_le (inputs : List TimerInput) : ∀ s : WinTimerState,
    s.sametimecount ≤ 100000 →
    (runClock s inputs).2.sametimecount ≤ 100000 := by
  induction inputs with
  | nil => intro s h; exact h
  | cons i is ih =>
    intro s h
    simpa [runClock] using ih _ (Sys_DoubleTime_cnt_le s i h)

theorem runClock_primary_mono (inputs : List TimerInput) : ∀ s : WinTimerState,
    s.timer_fallback = false → 0 ≤ s.timer_pfreq →
    List.Chain' (· ≤ ·) (runClock s inputs).1 ∧
    (∀ y ∈ (runClock s inputs).1, s.curtime ≤ y) ∧
    s.curtime ≤ (runClock s inputs).2.curtime := by
  induction inputs with
  | nil =>
    intro s _ _
    simp [runClock]
  | cons i is ih =>
    intro s h1 h2
    have hstep : Sys_DoubleTime s i =
        sysDoubleTimePrimary s
          (normalizeCounter s.timer_lowshift i.pcountLow i.pcountHigh) :=
      Sys_DoubleTime_of_not_fallback s i h1
    have hfb : (Sys_DoubleTime s i).2.timer_fallback = false := by
      rw [hstep, sysDoubleTimePrimary_fallback]; exact h1
    have hpf : (Sys_DoubleTime s i).2.timer_pfreq = s.timer_pfreq := by
      rw [hstep, sysDoubleTimePrimary_pfreq]
    have hret : (Sys_DoubleTime s i).1 = (Sys_DoubleTime s i).2.curtime := by
      rw [hstep, sysDoubleTimePrimary_fst]
    have hle : s.curtime ≤ (Sys_DoubleTime s i).2.curtime := by
      rw [hstep]; exact sysDoubleTimePrimary_curtime_le _ _ h2
    obtain ⟨hch, hall, hfin⟩ := ih (Sys_DoubleTime s i).2 hfb (hpf ▸ h2)
    refine ⟨?_, ?_, ?_⟩
    · show List.Chain' (· ≤ ·)
        ((Sys_DoubleTime s i).1 :: (runClock (Sys_DoubleTime s i).2 is).1)
      refine List.chain'_cons'.mpr ⟨?_, hch⟩
      intro y hy
      rw [hret]
      exact hall y (List.mem_of_mem_head? hy)
    · intro y hy
      rcases List.mem_cons.mp hy with hy | hy
      · rw [hy, hret]; exact hle
      · exact le_trans hle (hall y hy)
    · exact le_trans hle hfin

theorem fallbackTime_mono_of_no_wrap (start n1 n2 : ℕ)
    (h1 : start % TWO32 ≤ n1) (h12 : n1 ≤ n2) (h2 : n2 < TWO32) :
    fallbackTime start n1 ≤ fallbackTime start n2 := by
  unfold fallbackTime
  have e1 : n1 % TWO32 = n1 := Nat.mod_eq_of_lt (lt_of_le_of_lt h12 h2)
  have e2 : n2 % TWO32 = n2 := Nat.mod_eq_of_lt h2
  rw [e1, e2, if_neg (not_lt.mpr h1), if_neg (not_lt.mpr (le_trans h1 h12))]
  have hsub : n1 - start % TWO32 ≤ n2 - start % TWO32 := Nat.sub_le_sub_right h12 _
  have hc : ((n1 - start % TWO32 : ℕ) : ℚ) ≤ ((n2 - start % TWO32 : ℕ) : ℚ) := by
    exact_mod_cast hsub
  linarith

theorem tv_frac_mono (d u1 u2 : ℤ) (hu1 : u1 < 1000000) (hu2 : 0 ≤ u2)
    (h : 1 ≤ d ∨ (d = 0 ∧ u1 ≤ u2)) :
    (u1 : ℚ) / 1000000 ≤ (d : ℚ) + (u2 : ℚ) / 1000000 := by
  rcases h with h | ⟨hd, hu⟩
  · have h1 : (u1 : ℚ) < 1000000 := by exact_mod_cast hu1
    have h2 : (0 : ℚ) ≤ (u2 : ℚ) := by exact_mod_cast hu2
    have h3 : (1 : ℚ) ≤ (d : ℚ) := by exact_mod_cast h
    have h4 : (u1 : ℚ) / 1000000 < 1 := by
      rw [div_lt_one (by norm_num)]; exact h1
    have h5 : (0 : ℚ) ≤ (u2 : ℚ) / 1000000 := by positivity
    linarith
  · have hu12 : (u1 : ℚ) ≤ (u2 : ℚ) := by exact_mod_cast hu
    rw [hd]
    push_cast
    linarith [(div_le_div_iff_of_pos_right (show (0:ℚ) < 1000000 by norm_num)).mpr hu12]

theorem libretro_two_call_mono (s : LibretroState) (tp1 tp2 : Timeval)
    (hu1b : tp1.tv_usec < 1000000) (hu2a : 0 ≤ tp2.tv_usec)
    (hlex : tp1.tv_sec < tp2.tv_sec ∨
      (tp1.tv_sec = tp2.tv_sec ∧ tp1.tv_usec ≤ tp2.tv_usec))
    (hbase : s.secbase ≠ 0 ∨ tp1.tv_sec ≠ 0) :
    (Sys_DoubleTime_libretro s tp1).1 ≤
      (Sys_DoubleTime_libretro (Sys_DoubleTime_libretro s tp1).2 tp2).1 := by
  have hmain : (tp1.tv_usec : ℚ) / 1000000 ≤
      ((tp2.tv_sec - tp1.tv_sec : ℤ) : ℚ) + (tp2.tv_usec : ℚ) / 1000000 := by
    apply tv_frac_mono _ _ _ hu1b hu2a
    rcases hlex with h | ⟨h1, h2⟩
    · exact Or.inl (by omega)
    · exact Or.inr ⟨by omega, h2⟩
  by_cases hb : s.secbase = 0
  · have hsec1 : tp1.tv_sec ≠ 0 := by
      rcases hbase with h | h
      · exact absurd hb h
      · exact h
    simp [Sys_DoubleTime_libretro, hb, hsec1]
    push_cast at hmain
    linarith
  · simp [Sys_DoubleTime_libretro, hb]
    push_cast at hmain
    linarith

theorem Sys_InitTimers_pfreq_nonneg
    (qpfAvail : Bool) (freqLow freqHigh pcountLow pcountHigh tgt : ℕ) :
    0 ≤ (Sys_InitTimers qpfAvail freqLow freqHigh pcountLow pcountHigh tgt).timer_pfreq := by
  unfold Sys_InitTimers
  split_ifs
  · positivity
  · norm_num

/-! ### The frequency-normalization loop computes division by a power of two -/

theorem lor_two_pow_of_lt {x n : ℕ} (h : x < 2 ^ n) : x ||| 2 ^ n = x + 2 ^ n := by
  apply Nat.eq_of_testBit_eq
  intro i
  rcases lt_trichotomy i n with hi | rfl | hi
  · have hne : n ≠ i := by omega
    rw [Nat.testBit_or, Nat.add_comm, Nat.testBit_two_pow_add_gt hi,
      Nat.testBit_two_pow_of_ne hne, Bool.or_false]
  · rw [Nat.testBit_or, Nat.add_comm, Nat.testBit_two_pow_add_eq,
      Nat.testBit_lt_two_pow h, Nat.testBit_two_pow_self]
    rfl
  · have hne : n ≠ i := by omega
    have hxi : x < 2 ^ i := lt_of_lt_of_le h (Nat.pow_le_pow_right (by norm_num) (by omega))
    have hsum : x + 2 ^ n < 2 ^ i := by
      have h1 : x + 2 ^ n < 2 ^ (n + 1) := by
        have := Nat.pow_succ 2 n
        omega
      exact lt_of_lt_of_le h1 (Nat.pow_le_pow_right (by norm_num) (by omega))
    rw [Nat.testBit_or, Nat.testBit_lt_two_pow hxi, Nat.testBit_two_pow_of_ne hne,
      Nat.testBit_lt_two_pow hsum]
    rfl

/-- Proof vehicle: the normalization loop acting on the combined 64-bit value
n = highpart * 2^32 + lowpart is just repeated halving while n > 2000000. -/
def halveLoopF : ℕ → ℕ → ℕ → ℕ × ℕ
  | 0, n, sh => (sh, n)
  | fuel + 1, n, sh => if 2000000 < n then halveLoopF fuel (n / 2) (sh + 1) else (sh, n)

theorem freqShiftLoop_eq_halveLoopF : ∀ (fuel high low sh : ℕ), low < TWO32 →
    high * TWO32 + low < 2000000 * 2 ^ fuel →
    freqShiftLoop fuel high low sh = halveLoopF fuel (high * TWO32 + low) sh := by
  intro fuel
  have h32 : TWO32 = 4294967296 := rfl
  induction fuel with
  | zero =>
    intro high low sh hlow hn
    have hh : high = 0 := by rw [h32] at hn; simp at hn; omega
    subst hh
    simp [freqShiftLoop, halveLoopF]
  | succ fuel ih =>
    intro high low sh hlow hn
    have hp : (2 : ℕ) ^ (fuel + 1) = 2 ^ fuel * 2 := pow_succ 2 fuel
    by_cases hc : high ≠ 0 ∨ 2000000 < low
    · have hcn : 2000000 < high * TWO32 + low := by
        rw [h32] at *
        rcases hc with hc | hc <;> omega
      have hl2 : low / 2 < 2147483648 := by rw [h32] at hlow; omega
      have heq : ((low / 2) ||| ((high % 2) * 2147483648)) % TWO32 =
          low / 2 + high % 2 * 2147483648 := by
        rcases Nat.mod_two_eq_zero_or_one high with h2 | h2 <;> rw [h2]
        · simp only [Nat.zero_mul, Nat.or_zero, Nat.add_zero]
          apply Nat.mod_eq_of_lt
          rw [h32]; omega
        · simp only [Nat.one_mul]
          have h31 : (2147483648 : ℕ) = 2 ^ 31 := by norm_num
          rw [h31, lor_two_pow_of_lt (h31 ▸ hl2)]
          apply Nat.mod_eq_of_lt
          rw [h32]; omega
      have harg : high / 2 * TWO32 + (low / 2 + high % 2 * 2147483648) =
          (high * TWO32 + low) / 2 := by
        rw [h32]; omega
      have hfs : freqShiftLoop (fuel + 1) high low sh =
          freqShiftLoop fuel (high / 2)
            (((low / 2) ||| ((high % 2) * 2147483648)) % TWO32) (sh + 1) := by
        simp only [freqShiftLoop, if_pos hc]
      have hhl : halveLoopF (fuel + 1) (high * TWO32 + low) sh =
          halveLoopF fuel ((high * TWO32 + low) / 2) (sh + 1) := by
        simp only [halveLoopF, if_pos hcn]
      rw [hfs, hhl, heq, ← harg]
      apply ih
      · rw [h32] at hlow ⊢; omega
      · rw [harg, h32] at *
        omega
    · push_neg at hc
      obtain ⟨hh, hl⟩ := hc
      subst hh
      have hcn : ¬ 2000000 < 0 * TWO32 + low := by simpa using hl
      simp only [freqShiftLoop, halveLoopF, if_neg hcn]
      simp [hl]

theorem halveLoopF_spec : ∀ (fuel n sh : ℕ), n < 2000000 * 2 ^ fuel →
    (halveLoopF fuel n sh).2 = n / 2 ^ ((halveLoopF fuel n sh).1 - sh) ∧
    (halveLoopF fuel n sh).2 ≤ 2000000 ∧
    sh ≤ (halveLoopF fuel n sh).1 ∧
    ((halveLoopF fuel n sh).2 = n ∨ 1000000 ≤ (halveLoopF fuel n sh).2) := by
  intro fuel
  induction fuel with
  | zero =>
    intro n sh hn
    simp only [halveLoopF, Nat.sub_self, pow_zero, Nat.div_one]
    simp at hn
    refine ⟨by simp, by omega, by simp, by simp⟩
  | succ fuel ih =>
    intro n sh hn
    have hp : (2 : ℕ) ^ (fuel + 1) = 2 ^ fuel * 2 := pow_succ 2 fuel
    by_cases hc : 2000000 < n
    · simp only [halveLoopF, if_pos hc]
      obtain ⟨e1, e2, e3, e4⟩ := ih (n / 2) (sh + 1) (by omega)
      refine ⟨?_, e2, by omega, ?_⟩
      · rw [e1]
        have hs : (halveLoopF fuel (n / 2) (sh + 1)).1 - sh =
            ((halveLoopF fuel (n / 2) (sh + 1)).1 - (sh + 1)) + 1 := by omega
        rw [hs, pow_succ, Nat.mul_comm, Nat.div_div_eq_div_mul]
      · rcases e4 with e4 | e4
        · exact Or.inr (by omega)
        · exact Or.inr e4
    · simp only [halveLoopF, if_neg hc, Nat.sub_self, pow_zero, Nat.div_one]
      refine ⟨by simp, by omega, by simp, by simp⟩

theorem freqShiftLoop_spec64 (freq : ℕ) (hlt : freq < 2 ^ 64) :
    (freqShiftLoop 64 (freq / TWO32 % TWO32) (freq % TWO32 % TWO32) 0).2 =
      freq / 2 ^ (freqShiftLoop 64 (freq / TWO32 % TWO32) (freq % TWO32 % TWO32) 0).1 ∧
    (freqShiftLoop 64 (freq / TWO32 % TWO32) (freq % TWO32 % TWO32) 0).2 ≤ 2000000 ∧
    ((freqShiftLoop 64 (freq / TWO32 % TWO32) (freq % TWO32 % TWO32) 0).2 = freq ∨
      1000000 ≤ (freqShiftLoop 64 (freq / TWO32 % TWO32) (freq % TWO32 % TWO32) 0).2) := by
  have h32 : TWO32 = 4294967296 := rfl
  have h64 : (2 : ℕ) ^ 64 = 18446744073709551616 := by norm_num
  rw [h64] at hlt
  have hhigh : freq / TWO32 % TWO32 = freq / TWO32 := by
    apply Nat.mod_eq_of_lt
    rw [h32]
    omega
  have hlowm : freq % TWO32 % TWO32 = freq % TWO32 :=
    Nat.mod_mod_of_dvd freq (dvd_refl TWO32)
  have hlow : freq % TWO32 < TWO32 := Nat.mod_lt _ (by rw [h32]; norm_num)
  have hcomb : freq / TWO32 * TWO32 + freq % TWO32 = freq := by
    rw [h32]; omega
  have hbound : freq / TWO32 * TWO32 + freq % TWO32 < 2000000 * 2 ^ 64 := by
    rw [hcomb, h64]; omega
  rw [hhigh, hlowm,
    freqShiftLoop_eq_halveLoopF 64 (freq / TWO32) (freq % TWO32) 0 hlow hbound, hcomb]
  have hspec := halveLoopF_spec 64 freq 0 (by rw [h64]; omega)
  obtain ⟨e1, e2, _, e4⟩ := hspec
  rw [Nat.sub_zero] at e1
  exact ⟨e1, e2, e4⟩

theorem sysDoubleTimePrimary_curtime_else (s : WinTimerState) (temp : ℕ)
    (hng : ¬(temp ≤ s.timer_oldtime ∧ s.timer_oldtime - temp < GUARD)) :
    (sysDoubleTimePrimary s temp).2.curtime =
        s.curtime + (usub32 temp s.timer_oldtime : ℚ) * s.timer_pfreq ∨
    (sysDoubleTimePrimary s temp).2.curtime =
        s.curtime + (usub32 temp s.timer_oldtime : ℚ) * s.timer_pfreq + 1 := by
  simp only [sysDoubleTimePrimary, if_neg hng]
  split_ifs <;> simp

/-! ### Claim theorems -/

/-- C3: on the primary path, when the normalized reading is at most the stored
previous reading and the backward gap is below the 0x10000000 guard threshold,
Sys_DoubleTime stores the new reading as timer_oldtime and returns curtime
unchanged, touching no other state; in particular a reading exactly one unit
below the previous sample returns the same value as the prior call. -/
theorem C3_backward_guard :
    (∀ (s : WinTimerState) (temp : ℕ),
      temp ≤ s.timer_oldtime → s.timer_oldtime - temp < GUARD →
      sysDoubleTimePrimary s temp = (s.curtime, { s with timer_oldtime := temp })) ∧
    (∀ (s : WinTimerState) (temp : ℕ), 1 ≤ temp →
      (sysDoubleTimePrimary (sysDoubleTimePrimary s temp).2 (temp - 1)).1 =
        (sysDoubleTimePrimary s temp).1) := by
  have hpart1 : ∀ (s : WinTimerState) (temp : ℕ),
      temp ≤ s.timer_oldtime → s.timer_oldtime - temp < GUARD →
      sysDoubleTimePrimary s temp = (s.curtime, { s with timer_oldtime := temp }) := by
    intro s temp h1 h2
    simp only [sysDoubleTimePrimary, if_pos (And.intro h1 h2)]
  refine ⟨hpart1, ?_⟩
  intro s temp htemp
  have hold : (sysDoubleTimePrimary s temp).2.timer_oldtime = temp :=
    sysDoubleTimePrimary_oldtime s temp
  have hg1 : temp - 1 ≤ (sysDoubleTimePrimary s temp).2.timer_oldtime := by omega
  have hg2 : (sysDoubleTimePrimary s temp).2.timer_oldtime - (temp - 1) < GUARD := by
    have hG : GUARD = 268435456 := rfl
    omega
  rw [hpart1 _ _ hg1 hg2]
  exact (sysDoubleTimePrimary_fst s temp).symm

/-- C3 witness: concrete instances of both conjuncts. -/
theorem C3_backward_guard_witness :
    (9 ≤ (10 : ℕ) ∧ (10 : ℕ) - 9 < GUARD ∧
      sysDoubleTimePrimary
        ⟨1, 0, 10, false, 0, 7, 7, 0⟩ 9 =
        (7, ⟨1, 0, 9, false, 0, 7, 7, 0⟩)) ∧
    (sysDoubleTimePrimary
        (sysDoubleTimePrimary ⟨1, 0, 10, false, 0, 7, 7, 0⟩ 12).2 11).1 =
      (sysDoubleTimePrimary ⟨1, 0, 10, false, 0, 7, 7, 0⟩ 12).1 :=
  ⟨⟨by decide, by decide,
      C3_backward_guard.1 ⟨1, 0, 10, false, 0, 7, 7, 0⟩ 9 (by decide) (by decide)⟩,
    C3_backward_guard.2 ⟨1, 0, 10, false, 0, 7, 7, 0⟩ 12 (by decide)⟩

/-- C4: when the backward guard does not fire because the gap is at least the
guard threshold, the delta is the unsigned 32-bit difference: it equals
2^32 minus the backward gap, is strictly positive, curtime advances by exactly
delta * timer_pfreq (plus the 1-second stall jump in the stall case), and with
a positive frequency scale both the stored and the returned accumulated time
strictly increase. -/
theorem C4_wraparound_delta :
    ∀ (s : WinTimerState) (temp : ℕ), s.timer_oldtime < TWO32 →
      temp < s.timer_oldtime → GUARD ≤ s.timer_oldtime - temp →
      usub32 temp s.timer_oldtime = TWO32 - (s.timer_oldtime - temp) ∧
      0 < usub32 temp s.timer_oldtime ∧
      ((sysDoubleTimePrimary s temp).2.curtime =
          s.curtime + (usub32 temp s.timer_oldtime : ℚ) * s.timer_pfreq ∨
        (sysDoubleTimePrimary s temp).2.curtime =
          s.curtime + (usub32 temp s.timer_oldtime : ℚ) * s.timer_pfreq + 1) ∧
      (0 < s.timer_pfreq →
        s.curtime < (sysDoubleTimePrimary s temp).2.curtime ∧
        s.curtime < (sysDoubleTimePrimary s temp).1) := by
  intro s temp hlt htemp hguard
  have hT : TWO32 = 4294967296 := rfl
  have hG : GUARD = 268435456 := rfl
  have h1 : usub32 temp s.timer_oldtime = TWO32 - (s.timer_oldtime - temp) := by
    simp only [usub32, hT] at *
    omega
  have h2 : 0 < usub32 temp s.timer_oldtime := by
    rw [h1]
    rw [hT] at hlt ⊢
    omega
  have hng : ¬(temp ≤ s.timer_oldtime ∧ s.timer_oldtime - temp < GUARD) := by
    intro h
    omega
  have h3 := sysDoubleTimePrimary_curtime_else s temp hng
  refine ⟨h1, h2, h3, ?_⟩
  intro hpf
  have hc : (0 : ℚ) < (usub32 temp s.timer_oldtime : ℚ) := by exact_mod_cast h2
  have hprod : (0 : ℚ) < (usub32 temp s.timer_oldtime : ℚ) * s.timer_pfreq :=
    mul_pos hc hpf
  have hcur : s.curtime < (sysDoubleTimePrimary s temp).2.curtime := by
    rcases h3 with h3 | h3 <;> rw [h3] <;> linarith
  exact ⟨hcur, by rw [sysDoubleTimePrimary_fst]; exact hcur⟩

/-- C4 witness: a simulated wrap, previous reading 4294967246, new reading 50
(numeric decrease of 4294967196, at least the guard threshold): the unsigned
delta is 100 and time advances. -/
theorem C4_wraparound_delta_witness :
    (4294967246 : ℕ) < TWO32 ∧ (50 : ℕ) < 4294967246 ∧
    GUARD ≤ (4294967246 : ℕ) - 50 ∧ (0 : ℚ) < 1 ∧
    usub32 50 4294967246 = TWO32 - (4294967246 - 50) ∧
    (7 : ℚ) < (sysDoubleTimePrimary ⟨1, 0, 4294967246, false, 0, 7, 7, 0⟩ 50).1 :=
  ⟨by decide, by decide, by decide, by norm_num,
    (C4_wraparound_delta ⟨1, 0, 4294967246, false, 0, 7, 7, 0⟩ 50
      (by decide) (by decide) (by decide)).1,
    ((C4_wraparound_delta ⟨1, 0, 4294967246, false, 0, 7, 7, 0⟩ 50
      (by decide) (by decide) (by decide)).2.2.2 (by norm_num)).2⟩

/-- C7: a fallback-mode Sys_DoubleTime call returns without touching any
accumulation state: timer_oldtime, curtime, lastcurtime and sametimecount
(indeed the whole static state) are unchanged. -/
theorem C7_fallback_preserves_state :
    ∀ (s : WinTimerState) (inp : TimerInput), s.timer_fallback = true →
      (Sys_DoubleTime s inp).2.timer_oldtime = s.timer_oldtime ∧
      (Sys_DoubleTime s inp).2.curtime = s.curtime ∧
      (Sys_DoubleTime s inp).2.lastcurtime = s.lastcurtime ∧
      (Sys_DoubleTime s inp).2.sametimecount = s.sametimecount ∧
      (Sys_DoubleTime s inp).2 = s := by
  intro s inp h
  simp [Sys_DoubleTime, h]

/-- C7 witness: a concrete fallback-mode call leaves the state unchanged. -/
theorem C7_fallback_preserves_state_witness :
    (Sys_InitTimers false 0 0 0 0 1000).timer_fallback = true ∧
    (Sys_DoubleTime (Sys_InitTimers false 0 0 0 0 1000) ⟨0, 0, 1250⟩).2 =
      Sys_InitTimers false 0 0 0 0 1000 :=
  ⟨by decide,
    (C7_fallback_preserves_state (Sys_InitTimers false 0 0 0 0 1000) ⟨0, 0, 1250⟩
      (by decide)).2.2.2.2⟩

/-- C8: the sampling operation never fails: both variants are total
functions of the state and the counter readings, and a run of any length
produces exactly one returned value per call — no error, no missing result,
for every state and every input. -/
theorem C8_no_error_total :
    (∀ (s : WinTimerState) (inputs : List TimerInput),
      ((runClock s inputs).1).length = inputs.length) ∧
    (∀ (s : LibretroState) (tps : List Timeval),
      ((runLibretro s tps).1).length = tps.length) :=
  ⟨fun s inputs => runClock_length inputs s,
    fun s tps => runLibretro_length tps s⟩

/-- C9: sametimecount stays in 0..100000: it is 0 after initialization (both
paths) and each completed Sys_DoubleTime call preserves the bound, hence so
does any run. -/
theorem C9_sametimecount_bounded :
    (∀ (s : WinTimerState) (inp : TimerInput), s.sametimecount ≤ 100000 →
      (Sys_DoubleTime s inp).2.sametimecount ≤ 100000) ∧
    (∀ (s : WinTimerState) (inputs : List TimerInput), s.sametimecount ≤ 100000 →
      (runClock s inputs).2.sametimecount ≤ 100000) ∧
    (∀ (qpfAvail : Bool) (freqLow freqHigh pcountLow pcountHigh tgt : ℕ),
      (Sys_InitTimers qpfAvail freqLow freqHigh pcountLow pcountHigh tgt).sametimecount = 0) := by
  refine ⟨Sys_DoubleTime_cnt_le, fun s inputs => runClock_cnt_le inputs s, ?_⟩
  intro qpfAvail a b c d e
  unfold Sys_InitTimers
  split_ifs <;> rfl

/-- C9 witness: a short concrete run keeps the counter within the bound. -/
theorem C9_sametimecount_bounded_witness :
    (Sys_InitTimers true 1 0 5 0 0).sametimecount ≤ 100000 ∧
    (runClock (Sys_InitTimers true 1 0 5 0 0) [⟨6, 0, 0⟩, ⟨9, 0, 0⟩]).2.sametimecount
      ≤ 100000 :=
  ⟨by decide,
    C9_sametimecount_bounded.2.1 (Sys_InitTimers true 1 0 5 0 0)
      [⟨6, 0, 0⟩, ⟨9, 0, 0⟩] (by decide)⟩

/-- C10: the first libretro Sys_DoubleTime call (secbase still zero, current
seconds nonzero) captures the seconds as the origin and returns only the
microsecond fraction over 1000000, a value in the interval from 0 inclusive
to 1 exclusive. -/
theorem C10_libretro_first_call :
    ∀ (s : LibretroState) (tp : Timeval), s.secbase = 0 → tp.tv_sec ≠ 0 →
      0 ≤ tp.tv_usec → tp.tv_usec < 1000000 →
      (Sys_DoubleTime_libretro s tp).1 = (tp.tv_usec : ℚ) / 1000000 ∧
      0 ≤ (Sys_DoubleTime_libretro s tp).1 ∧
      (Sys_DoubleTime_libretro s tp).1 < 1 ∧
      (Sys_DoubleTime_libretro s tp).2.secbase = tp.tv_sec := by
  intro s tp hb hsec hu1 hu2
  simp only [Sys_DoubleTime_libretro, if_pos hb]
  have hq1 : (0 : ℚ) ≤ (tp.tv_usec : ℚ) := by exact_mod_cast hu1
  refine ⟨trivial, div_nonneg hq1 (by norm_num), ?_, trivial⟩
  rw [div_lt_one (by norm_num)]
  exact_mod_cast hu2

/-- C10 witness: a first call at 100 s + 250000 us returns exactly 1/4. -/
theorem C10_libretro_first_call_witness :
    (Sys_DoubleTime_libretro ⟨0⟩ ⟨100, 250000⟩).1 = (250000 : ℚ) / 1000000 ∧
    0 ≤ (Sys_DoubleTime_libretro ⟨0⟩ ⟨100, 250000⟩).1 ∧
    (Sys_DoubleTime_libretro ⟨0⟩ ⟨100, 250000⟩).1 < 1 ∧
    (Sys_DoubleTime_libretro ⟨0⟩ ⟨100, 250000⟩).2.secbase = 100 :=
  C10_libretro_first_call ⟨0⟩ ⟨100, 250000⟩ rfl (by decide) (by decide) (by decide)

/-- C1 counterexample: monotonicity fails on the fallback path when the
millisecond counter wraps.  With fallback origin 1000, a call at reading
4294967295 returns 4294966295/1000 s, and the next call at reading 0 (the
counter has wrapped) returns only 2147482647/1000 s, a smaller value, because
the wrap branch adds LONG_MAX rather than the counter span. -/
theorem C1_fallback_wrap_counterexample :
    (Sys_DoubleTime
        (Sys_DoubleTime (Sys_InitTimers false 0 0 0 0 1000) ⟨0, 0, 4294967295⟩).2
        ⟨0, 0, 0⟩).1 <
      (Sys_DoubleTime (Sys_InitTimers false 0 0 0 0 1000) ⟨0, 0, 4294967295⟩).1 := by
  show fallbackTime 1000 0 < fallbackTime 1000 4294967295
  norm_num [fallbackTime, TWO32, LONG_MAX]

/-- C1 (amended): the returned values are non-decreasing on the primary path
for every input sequence (given the nonnegative frequency scale that
initialization always produces), and on the fallback path as long as the
millisecond readings are non-decreasing and have not wrapped below the
origin; the libretro variant is non-decreasing across consecutive calls
whenever the gettimeofday readings are non-decreasing (and the first call
does not see second value 0). -/
theorem C1_monotonicity_amended :
    (∀ (s : WinTimerState) (inputs : List TimerInput),
      s.timer_fallback = false → 0 ≤ s.timer_pfreq →
      List.Chain' (· ≤ ·) (runClock s inputs).1 ∧
      s.curtime ≤ (runClock s inputs).2.curtime) ∧
    (∀ (qpfAvail : Bool) (freqLow freqHigh pcountLow pcountHigh tgt : ℕ),
      0 ≤ (Sys_InitTimers qpfAvail freqLow freqHigh pcountLow pcountHigh tgt).timer_pfreq) ∧
    (∀ (start n1 n2 : ℕ), start % TWO32 ≤ n1 → n1 ≤ n2 → n2 < TWO32 →
      fallbackTime start n1 ≤ fallbackTime start n2) ∧
    (∀ (s : LibretroState) (tp1 tp2 : Timeval),
      tp1.tv_usec < 1000000 → 0 ≤ tp2.tv_usec →
      (tp1.tv_sec < tp2.tv_sec ∨ (tp1.tv_sec = tp2.tv_sec ∧ tp1.tv_usec ≤ tp2.tv_usec)) →
      (s.secbase ≠ 0 ∨ tp1.tv_sec ≠ 0) →
      (Sys_DoubleTime_libretro s tp1).1 ≤
        (Sys_DoubleTime_libretro (Sys_DoubleTime_libretro s tp1).2 tp2).1) := by
  refine ⟨?_, Sys_InitTimers_pfreq_nonneg, fallbackTime_mono_of_no_wrap,
    libretro_two_call_mono⟩
  intro s inputs h1 h2
  obtain ⟨hch, _, hfin⟩ := runClock_primary_mono inputs s h1 h2
  exact ⟨hch, hfin⟩

/-- C1 witness: concrete instances of the three monotonicity conjuncts. -/
theorem C1_monotonicity_amended_witness :
    List.Chain' (· ≤ ·)
      (runClock ⟨1, 0, 5, false, 0, 0, 0, 0⟩ [⟨6, 0, 0⟩, ⟨9, 0, 0⟩]).1 ∧
    fallbackTime 1000 1250 ≤ fallbackTime 1000 2250 ∧
    (Sys_DoubleTime_libretro ⟨0⟩ ⟨100, 250000⟩).1 ≤
      (Sys_DoubleTime_libretro (Sys_DoubleTime_libretro ⟨0⟩ ⟨100, 250000⟩).2
        ⟨101, 0⟩).1 :=
  ⟨(C1_monotonicity_amended.1 ⟨1, 0, 5, false, 0, 0, 0, 0⟩
      [⟨6, 0, 0⟩, ⟨9, 0, 0⟩] rfl (by show (0 : ℚ) ≤ 1; norm_num)).1,
    C1_monotonicity_amended.2.2.1 1000 1250 2250 (by decide) (by decide) (by decide),
    C1_monotonicity_amended.2.2.2 ⟨0⟩ ⟨100, 250000⟩ ⟨101, 0⟩ (by decide) (by decide)
      (by decide) (by decide)⟩

theorem runClock_replicate_fixpoint (s : WinTimerState) (i : TimerInput)
    (h : Sys_DoubleTime s i = (s.curtime, s)) :
    ∀ n : ℕ, runClock s (List.replicate n i) = (List.replicate n s.curtime, s) := by
  intro n
  induction n with
  | zero => rfl
  | succ n ih =>
    show runClock s (i :: List.replicate n i) = _
    simp [runClock, h, ih, List.replicate_succ]

/-- C2 counterexample: a zero-delta raw sequence never triggers the stall
breaker.  From a freshly initialized state (frequency 1, initial reading 5),
feeding the identical reading 5 for 100002 consecutive calls returns the
frozen value 0 every time — including the call after the 100001st — and the
frozen value is not the frozen value plus 1.0. -/
theorem C2_zero_delta_counterexample :
    runClock ⟨1, 0, 5, false, 0, 0, 0, 0⟩ (List.replicate 100002 ⟨5, 0, 0⟩) =
      (List.replicate 100002 0, (⟨1, 0, 5, false, 0, 0, 0, 0⟩ : WinTimerState)) ∧
    (0 : ℚ) ≠ 0 + 1 := by
  constructor
  · have h : Sys_DoubleTime ⟨1, 0, 5, false, 0, 0, 0, 0⟩ ⟨5, 0, 0⟩ =
        ((⟨1, 0, 5, false, 0, 0, 0, 0⟩ : WinTimerState).curtime,
          (⟨1, 0, 5, false, 0, 0, 0, 0⟩ : WinTimerState)) := rfl
    exact runClock_replicate_fixpoint _ _ h 100002
  · norm_num

/-- C2 (amended): the stall-breaker is per-call: a call that takes the
accumulation branch, computes a new accumulated value bit-identical to the
stored last value, and finds the stall counter already at 100000, returns
the frozen value plus exactly 1.0 and resets the counter to zero.  (Under
exact arithmetic this situation only arises outside the reachable states —
in the C code it is produced by double-precision absorption.)  A zero-delta
raw reading, by contrast, takes the guard branch and leaves the whole state
except timer_oldtime unchanged, so it never feeds the stall counter. -/
theorem C2_stall_breaker_amended :
    (∀ (s : WinTimerState) (temp : ℕ),
      ¬(temp ≤ s.timer_oldtime ∧ s.timer_oldtime - temp < GUARD) →
      s.curtime + (usub32 temp s.timer_oldtime : ℚ) * s.timer_pfreq = s.lastcurtime →
      100000 ≤ s.sametimecount →
      (sysDoubleTimePrimary s temp).1 = s.lastcurtime + 1 ∧
      (sysDoubleTimePrimary s temp).2.curtime = s.lastcurtime + 1 ∧
      (sysDoubleTimePrimary s temp).2.sametimecount = 0) ∧
    (∀ (s : WinTimerState) (temp : ℕ), temp = s.timer_oldtime →
      sysDoubleTimePrimary s temp = (s.curtime, s)) := by
  constructor
  · intro s temp hng heq hcnt
    simp only [sysDoubleTimePrimary, if_neg hng]
    rw [if_pos heq, if_pos (by omega : s.sametimecount + 1 > 100000)]
    simp [heq]
  · intro s temp htemp
    subst htemp
    have hg2 : s.timer_oldtime - s.timer_oldtime < GUARD := by
      have hG : (0 : ℕ) < GUARD := by decide
      omega
    simp only [sysDoubleTimePrimary, if_pos (And.intro (le_refl s.timer_oldtime) hg2)]

/-- C2 witness: a state with the computed value equal to the stored last
value and the counter at 100000 jumps by exactly 1.0 and resets; a zero-delta
call from a concrete state returns the frozen value with no state change. -/
theorem C2_stall_breaker_amended_witness :
    ((sysDoubleTimePrimary ⟨1, 0, 0, false, 0, 0, 5, 100000⟩ 5).1 = 5 + 1 ∧
      (sysDoubleTimePrimary ⟨1, 0, 0, false, 0, 0, 5, 100000⟩ 5).2.sametimecount = 0) ∧
    sysDoubleTimePrimary ⟨1, 0, 5, false, 0, 7, 7, 0⟩ 5 =
      (7, ⟨1, 0, 5, false, 0, 7, 7, 0⟩) :=
  ⟨⟨(C2_stall_breaker_amended.1 ⟨1, 0, 0, false, 0, 0, 5, 100000⟩ 5
        (by decide) (by norm_num [usub32, TWO32]) (by decide)).1,
      (C2_stall_breaker_amended.1 ⟨1, 0, 0, false, 0, 0, 5, 100000⟩ 5
        (by decide) (by norm_num [usub32, TWO32]) (by decide)).2.2⟩,
    C2_stall_breaker_amended.2 ⟨1, 0, 5, false, 0, 7, 7, 0⟩ 5 (by decide)⟩

/-- C5: evaluation of the fallback branch.  An unwrapped sample 250 ms past
the origin yields 0.25 s as claimed; but at a wrapped sample (origin
4294967295, reading 0, a one-tick wrap of the DWORD counter) the code yields
2147483648/1000 s because it adds LONG_MAX = 2^31 - 1, not the counter span
2^32 = TWO32; the correct wrapped difference of the claim is 1/1000 s. -/
theorem C5_fallback_wrap_eval :
    fallbackTime 1000 1250 = 1 / 4 ∧
    fallbackTime 4294967295 0 = 2147483648 / 1000 ∧
    (2147483648 : ℚ) / 1000 ≠ ((0 + (TWO32 - 4294967295) : ℕ) : ℚ) / 1000 := by
  refine ⟨by norm_num [fallbackTime, TWO32], by norm_num [fallbackTime, TWO32, LONG_MAX],
    by norm_num [TWO32]⟩

/-- C6: initialization repeatedly halves the 64-bit frequency until it is at
most 2000000 (so its high 32 bits are zero), records the shift count
timer_lowshift, applies the same shift to the initial counter sample, and
sets the frequency scale to the reciprocal of the shifted frequency; a raw
delta expressed in shifted units times the scale is exactly the elapsed
wall-clock seconds whenever the shifts divide the frequency evenly. -/
theorem C6_init_normalization :
    ∀ (freq pcl pch : ℕ), 0 < freq → freq < 2 ^ 64 →
      freq / 2 ^ (initFromFreq freq pcl pch).timer_lowshift ≤ 2000000 ∧
      0 < freq / 2 ^ (initFromFreq freq pcl pch).timer_lowshift ∧
      (initFromFreq freq pcl pch).timer_pfreq =
        1 / ((freq / 2 ^ (initFromFreq freq pcl pch).timer_lowshift : ℕ) : ℚ) ∧
      (initFromFreq freq pcl pch).timer_oldtime =
        normalizeCounter (initFromFreq freq pcl pch).timer_lowshift pcl pch ∧
      (∀ d : ℕ, (2 : ℕ) ^ (initFromFreq freq pcl pch).timer_lowshift ∣ freq →
        (d : ℚ) * (initFromFreq freq pcl pch).timer_pfreq =
          (d : ℚ) * (((2 : ℕ) ^ (initFromFreq freq pcl pch).timer_lowshift : ℕ) : ℚ)
            / (freq : ℚ)) := by
  intro freq pcl pch hpos hlt
  obtain ⟨e1, e2, e4⟩ := freqShiftLoop_spec64 freq hlt
  have hproj1 : (initFromFreq freq pcl pch).timer_lowshift =
      (freqShiftLoop 64 (freq / TWO32 % TWO32) (freq % TWO32 % TWO32) 0).1 := rfl
  have hproj2 : (initFromFreq freq pcl pch).timer_pfreq =
      1 / (((freqShiftLoop 64 (freq / TWO32 % TWO32) (freq % TWO32 % TWO32) 0).2 : ℕ) : ℚ) :=
    rfl
  have hproj3 : (initFromFreq freq pcl pch).timer_oldtime =
      normalizeCounter
        (freqShiftLoop 64 (freq / TWO32 % TWO32) (freq % TWO32 % TWO32) 0).1 pcl pch :=
    rfl
  have hle : freq / 2 ^ (initFromFreq freq pcl pch).timer_lowshift ≤ 2000000 := by
    rw [hproj1, ← e1]; exact e2
  have hgt : 0 < freq / 2 ^ (initFromFreq freq pcl pch).timer_lowshift := by
    rw [hproj1, ← e1]
    rcases e4 with e4 | e4 <;> omega
  have hpf : (initFromFreq freq pcl pch).timer_pfreq =
      1 / ((freq / 2 ^ (initFromFreq freq pcl pch).timer_lowshift : ℕ) : ℚ) := by
    rw [hproj2, hproj1, ← e1]
  refine ⟨hle, hgt, hpf, by rw [hproj3, hproj1], ?_⟩
  intro d hdvd
  rw [hpf]
  rw [hproj1] at hdvd hgt
  have hpow : (((2 : ℕ) ^ (freqShiftLoop 64 (freq / TWO32 % TWO32)
      (freq % TWO32 % TWO32) 0).1 : ℕ) : ℚ) ≠ 0 := by positivity
  have hcast : ((freq / 2 ^ (freqShiftLoop 64 (freq / TWO32 % TWO32)
      (freq % TWO32 % TWO32) 0).1 : ℕ) : ℚ) =
      (freq : ℚ) / (((2 : ℕ) ^ (freqShiftLoop 64 (freq / TWO32 % TWO32)
        (freq % TWO32 % TWO32) 0).1 : ℕ) : ℚ) :=
    Nat.cast_div hdvd hpow
  rw [hproj1, hcast]
  have hfq : (freq : ℚ) ≠ 0 := by positivity
  field_simp

/-- C6 witness: frequency 16000000 needs exactly 3 shift iterations; the
scale is 1/2000000, and a shifted-unit delta of 1000000 reproduces
1000000 * 2^3 / 16000000 = 0.5 s exactly. -/
theorem C6_init_normalization_witness :
    (initFromFreq 16000000 0 0).timer_lowshift = 3 ∧
    (16000000 : ℕ) / 2 ^ 3 ≤ 2000000 ∧
    (1000000 : ℚ) * (initFromFreq 16000000 0 0).timer_pfreq =
      (1000000 : ℚ) * (((2 : ℕ) ^ (initFromFreq 16000000 0 0).timer_lowshift : ℕ) : ℚ)
        / (16000000 : ℚ) := by
  have hs : (initFromFreq 16000000 0 0).timer_lowshift = 3 := by decide
  refine ⟨hs, by norm_num, ?_⟩
  exact (C6_init_normalization 16000000 0 0 (by norm_num) (by norm_num)).2.2.2.2
    1000000 (by rw [hs]; decide)

end TyrQuake
